import Mathlib

/-!
Verification of the SecureWebOpsApp bounded URL security prober
(the edge function in the repository: target validation, rate limiting,
lightweight HTTP probe, and scan orchestration).

Strings of the JavaScript source are modelled as lists of characters
(`Str`), so that every string operation of the source (split, prefix and
suffix tests, ASCII lowercasing, trimming) is a structurally recursive,
fully executable Lean function.  Network and platform effects (URL
parsing, DNS answers, fetch outcomes, the current clock, generated row
ids) are passed to the embedded functions as explicit arguments; the
durable store is a record of scan rows and scan-result rows, and each
database update performed by an operation is one element of the returned
trace of store states.
-/

/-- Equality of `Except` values is decidable when it is on both sides. -/
instance {ε α : Type} [DecidableEq ε] [DecidableEq α] : DecidableEq (Except ε α) :=
  fun x y =>
    match x, y with
    | Except.error a, Except.error b =>
      if h : a = b then isTrue (by rw [h]) else isFalse (by simp [h])
    | Except.ok a, Except.ok b =>
      if h : a = b then isTrue (by rw [h]) else isFalse (by simp [h])
    | Except.error _, Except.ok _ => isFalse (by simp)
    | Except.ok _, Except.error _ => isFalse (by simp)

/-- JavaScript strings, modelled as lists of characters. -/
abbrev Str := List Char

/-- Embed a Lean string literal into the `Str` model. -/
def str (s : String) : Str := s.data

/-- ASCII lowercasing of one character; models what JavaScript
`toLowerCase` does on the ASCII hostnames and header names this
program handles. -/
def lowerChar (c : Char) : Char :=
  match c with
  | 'A' => 'a' | 'B' => 'b' | 'C' => 'c' | 'D' => 'd' | 'E' => 'e' | 'F' => 'f'
  | 'G' => 'g' | 'H' => 'h' | 'I' => 'i' | 'J' => 'j' | 'K' => 'k' | 'L' => 'l'
  | 'M' => 'm' | 'N' => 'n' | 'O' => 'o' | 'P' => 'p' | 'Q' => 'q' | 'R' => 'r'
  | 'S' => 's' | 'T' => 't' | 'U' => 'u' | 'V' => 'v' | 'W' => 'w' | 'X' => 'x'
  | 'Y' => 'y' | 'Z' => 'z'
  | other => other

/-- JavaScript `toLowerCase` on the ASCII strings used here. -/
def jsToLower (s : Str) : Str := s.map lowerChar

/-- ASCII whitespace, for JavaScript `trim`. -/
def isSpaceChar (c : Char) : Bool :=
  c = ' ' || c = '\t' || c = '\n' || c = '\r'

/-- JavaScript `trim`: strip whitespace from both ends. -/
def jsTrim (s : Str) : Str :=
  ((s.dropWhile isSpaceChar).reverse.dropWhile isSpaceChar).reverse

/-- JavaScript `split` on a one-character separator: `"a.b".split(".")`. -/
def splitOn (sep : Char) : Str → List Str
  | [] => [[]]
  | c :: rest =>
    if c = sep then [] :: splitOn sep rest
    else
      match splitOn sep rest with
      | [] => [[c]]
      | p :: ps => (c :: p) :: ps

/-- JavaScript `Number(s)` on the dotted-quad parts reachable from URL
hostnames: `none` is `NaN`; the empty string converts to `0`, a string of
decimal digits to its value, and anything containing a non-digit to `NaN`. -/
def jsNumber (s : Str) : Option Nat :=
  if s.isEmpty then some 0
  else if s.all Char.isDigit then
    some (s.foldl (fun n c => 10 * n + (c.toNat - 48)) 0)
  else none

/-- JavaScript truthiness of an optional string field: `undefined`,
`null` and the empty string are falsy. -/
def jsTruthy (o : Option Str) : Bool :=
  match o with
  | some s => !s.isEmpty
  | none => false

/-- `parseIp` of the source: split on `"."`, require exactly four parts,
convert each with `Number`, and reject `NaN` or out-of-range octets. -/
def parseIp (ip : Str) : Option (List Nat) :=
  let parts := splitOn '.' ip
  if parts.length ≠ 4 then none
  else
    let nums := parts.map jsNumber
    if nums.any (fun o => o.isNone || 255 < o.getD 0) then none
    else some (nums.map (fun o => o.getD 0))

/-- `isPrivateOrLocalIp` of the source: the IPv4 private/loopback ranges
when the string parses as a dotted quad, otherwise the textual IPv6
checks (`::1`, a `fc`/`fd` prefix, a `fe80:` prefix) on the lowercased
string. -/
def isPrivateOrLocalIp (ip : Str) : Bool :=
  match parseIp ip with
  | some v4 =>
    let a := v4.getD 0 0
    let b := v4.getD 1 0
    decide (a = 10) || decide (a = 127) || (decide (a = 169) && decide (b = 254)) ||
      (decide (a = 172) && decide (16 ≤ b) && decide (b ≤ 31)) ||
      (decide (a = 192) && decide (b = 168)) || decide (a = 0)
  | none =>
    let normalized := jsToLower ip
    decide (normalized = str "::1") || (str "fc").isPrefixOf normalized ||
      (str "fd").isPrefixOf normalized || (str "fe80:").isPrefixOf normalized

/-- `isBlockedHostname` of the source: lowercase, then block `localhost`,
any `.localhost`/`.local` suffix, and private or loopback addresses. -/
def isBlockedHostname (hostname : Str) : Bool :=
  let host := jsToLower hostname
  decide (host = str "localhost") || (str ".localhost").isSuffixOf host ||
    (str ".local").isSuffixOf host || isPrivateOrLocalIp host

/-- `isAllowedTarget` of the source.  The `SCAN_TARGET_ALLOWLIST`
environment variable is an explicit argument (`none` models an unset
variable).  An unset or blank allow-list admits every host; otherwise the
host must equal an entry or be a subdomain of one. -/
def isAllowedTarget (hostname : Str) (allowlistEnv : Option Str) : Bool :=
  match allowlistEnv.map jsTrim with
  | none => true
  | some raw =>
    if raw.isEmpty then true
    else
      let allowed := ((splitOn ',' raw).map (fun d => jsToLower (jsTrim d))).filter
        (fun d => !d.isEmpty)
      let host := jsToLower hostname
      allowed.any (fun entry => decide (host = entry) || ('.' :: entry).isSuffixOf host)

/-- `resolvesToPrivateIp` of the source.  The combined A and AAAA DNS
answers for the hostname are an explicit argument; a failed lookup
contributes no addresses (the source ignores lookup failures). -/
def resolvesToPrivateIp (resolved : List Str) : Bool :=
  resolved.any isPrivateOrLocalIp

/-- A parsed URL as the WHATWG parser exposes it to this program:
`protocol` keeps its trailing colon (`"http:"`), `hostname` is the
lowercased host, and `rest` is everything after the host (port, path,
query, fragment). -/
structure URLRec where
  protocol : Str
  hostname : Str
  rest : Str
deriving DecidableEq

/-- `URL.toString()` for the parsed record. -/
def urlToString (u : URLRec) : Str :=
  u.protocol ++ str "//" ++ u.hostname ++ u.rest

/-- Characters allowed in a URL scheme. -/
def schemeChar (c : Char) : Bool :=
  c.isAlpha || c.isDigit || c = '+' || c = '-' || c = '.'

/-- Split a string at its first colon. -/
def splitAtColon : Str → Option (Str × Str)
  | [] => none
  | c :: rest =>
    if c = ':' then some ([], rest)
    else
      match splitAtColon rest with
      | some (a, b) => some (c :: a, b)
      | none => none

/-- Split a string at its first `]`. -/
def splitAtRB : Str → Option (Str × Str)
  | [] => none
  | c :: rest =>
    if c = ']' then some ([], rest)
    else
      match splitAtRB rest with
      | some (a, b) => some (c :: a, b)
      | none => none

/-- Characters admitted inside a bracketed IPv6 literal (hex digits,
colons, dots); the full IPv6 grammar and zero-compression
canonicalization are not modelled. -/
def ipv6Char (c : Char) : Bool :=
  c.isDigit || ('a' ≤ lowerChar c && lowerChar c ≤ 'f') || c = ':' || c = '.'

/-- What may legally follow the host inside the authority: nothing, a
port, or the path/query/fragment. -/
def validAfterHost : Str → Bool
  | [] => true
  | c :: _ => c = ':' || c = '/' || c = '?' || c = '#'

/-- WHATWG serialization defaults an empty pathname to `/` for http(s)
URLs. -/
def normalizePath (t : Str) : Str :=
  match t with
  | [] => ['/']
  | c :: _ => if c = '?' || c = '#' then '/' :: t else t

/-- Validate and keep an optional `:port` (digits only: the parser
throws on a non-numeric port, which is how `http://febf::1` fails; the
port-range check is not modelled), then default the pathname. -/
def parsePortAndPath (afterHost : Str) : Option Str :=
  match afterHost with
  | ':' :: r =>
    let portStr := r.takeWhile (fun c => !(c = '/' || c = '?' || c = '#'))
    let after := r.dropWhile (fun c => !(c = '/' || c = '?' || c = '#'))
    if !(portStr.all Char.isDigit) then none
    else if portStr.isEmpty then some (normalizePath after)
    else some ((':' :: portStr) ++ normalizePath after)
  | t => some (normalizePath t)

/-- `new URL(raw)`, modelled for the absolute `scheme://...` shapes this
program feeds it: scheme before the first colon; after `//`, either a
bracketed IPv6 literal — whose serialized hostname keeps the brackets,
as in the WHATWG standard, where `new URL("http://[::1]").hostname` is
`"[::1]"` — or a host read up to the first `/`, `:`, `?` or `#`; then an
optional numeric port; scheme and host are lowercased and the empty
pathname is serialized as `/`.  `none` models the constructor throwing:
no scheme, empty host (as for `http://::1`), an unclosed or malformed
bracket, junk after a bracket, or a non-numeric port (as for
`http://febf::1`).  Not modelled: userinfo, IPv4/IPv6 canonicalization
inside the host, port-range checks, and special-scheme forms without
`//`. -/
def parseURL (raw : Str) : Option URLRec :=
  match splitAtColon raw with
  | none => none
  | some (scheme, afterColon) =>
    if scheme.isEmpty || !(scheme.all schemeChar) then none
    else if (str "//").isPrefixOf afterColon then
      let afterSlashes := afterColon.drop 2
      match afterSlashes with
      | '[' :: r =>
        match splitAtRB r with
        | none => none
        | some (content, afterBr) =>
          if content.isEmpty || !(content.all ipv6Char) || !(validAfterHost afterBr) then
            none
          else
            match parsePortAndPath afterBr with
            | none => none
            | some rest =>
              some ⟨jsToLower scheme ++ [':'], '[' :: (jsToLower content ++ [']']), rest⟩
      | _ =>
        let host := afterSlashes.takeWhile
          (fun c => !(c = '/' || c = ':' || c = '?' || c = '#'))
        let afterHost := afterSlashes.dropWhile
          (fun c => !(c = '/' || c = ':' || c = '?' || c = '#'))
        if host.isEmpty then none
        else
          match parsePortAndPath afterHost with
          | none => none
          | some rest => some ⟨jsToLower scheme ++ [':'], jsToLower host, rest⟩
    else none

/-- `validateTargetUrl` of the source, over the already-parsed URL
(`none` models `new URL` throwing), the allow-list environment variable,
and the DNS answers for the hostname. -/
def validateTargetUrl (parsed : Option URLRec) (allowlistEnv : Option Str)
    (resolved : List Str) : Except Str URLRec :=
  match parsed with
  | none => Except.error (str "Invalid URL")
  | some url =>
    if ¬ (url.protocol = str "http:" ∨ url.protocol = str "https:") then
      Except.error (str "Target must use http:// or https://")
    else if isBlockedHostname url.hostname then
      Except.error (str "Target is blocked for security reasons")
    else if ¬ (isAllowedTarget url.hostname allowlistEnv = true) then
      Except.error (str "Target is not in allowlist")
    else if resolvesToPrivateIp resolved then
      Except.error (str "Target resolves to a private address")
    else Except.ok url

/-- The in-memory rate-limiter map from caller identity to the recorded
request timestamps (milliseconds). -/
abbrev RL := Str → List Int

/-- The empty rate-limiter map. -/
def rlEmpty : RL := fun _ => []

/-- `rateLimiter.set(key, v)`. -/
def updateRL (rl : RL) (key : Str) (v : List Int) : RL :=
  fun k => if k = key then v else rl k

/-- `checkRateLimit` of the source.  The caller identity (first
`x-forwarded-for` entry, `"unknown"` when absent) and `Date.now()` are
explicit arguments; the result is the admission decision together with
the rate-limiter map after the call.  Timestamps older than the
60-second window are pruned, the call is admitted only when fewer than
20 remain, and the current timestamp is recorded only on admission. -/
def checkRateLimit (rl : RL) (key : Str) (now : Int) : Bool × RL :=
  let prior := rl key
  let inWindow := prior.filter (fun ts => decide (now - ts ≤ 60000))
  if 20 ≤ inWindow.length then (false, rl)
  else (true, updateRL rl key (inWindow ++ [now]))

/-- A sequence of `checkRateLimit` calls by one caller, returning the
admission decisions in order and the final map. -/
def admitSeq (rl : RL) (key : Str) (times : List Int) : List Bool × RL :=
  match times with
  | [] => ([], rl)
  | t :: rest =>
    let step := checkRateLimit rl key t
    let tail := admitSeq step.2 key rest
    (step.1 :: tail.1, tail.2)

/-- The finding severities of the source. -/
inductive Severity
  | critical
  | high
  | medium
  | low
deriving DecidableEq

/-- A finding as the probe records it.  The source also stores a random
`crypto.randomUUID()` id on each finding; the id carries no information
and is omitted from the model. -/
structure Finding where
  title : Str
  severity : Severity
  category : Str
  evidence : Str
  recommendation : Str
deriving DecidableEq

/-- Outcome of the bounded HEAD request: an exception (network error or
timeout), or a response whose final URL after redirects is `finalUrl`. -/
inductive HeadOutcome
  | err
  | ok (finalUrl : Str)
deriving DecidableEq

/-- Outcome of the bounded GET request: an exception, or a response
carrying the named headers. -/
inductive GetOutcome
  | err
  | ok (headerNames : List Str)
deriving DecidableEq

/-- `Headers.has`, which is case-insensitive. -/
def headersHas (headerNames : List Str) (name : Str) : Bool :=
  headerNames.any (fun h => decide (jsToLower h = jsToLower name))

/-- The per-severity issue counters of the probe summary. -/
structure IssueCounts where
  critical : Nat
  high : Nat
  medium : Nat
  low : Nat
deriving DecidableEq

/-- The probe summary: score, risk label and issue counts.  The
`generated_at` wall-clock field of the source is omitted. -/
structure ScanSummary where
  score : Int
  risk : Str
  counts : IssueCounts
deriving DecidableEq

/-- The `issueCounts` accumulation of the source (`findings.forEach`). -/
def issueCounts (findings : List Finding) : IssueCounts :=
  findings.foldl
    (fun acc f =>
      match f.severity with
      | Severity.critical => { acc with critical := acc.critical + 1 }
      | Severity.high => { acc with high := acc.high + 1 }
      | Severity.medium => { acc with medium := acc.medium + 1 }
      | Severity.low => { acc with low := acc.low + 1 })
    ⟨0, 0, 0, 0⟩

/-- The scoring tail of `runLightweightSecurityScan`: weighted penalty,
clamped score, and risk label. -/
def scoreSummary (findings : List Finding) : ScanSummary :=
  let counts := issueCounts findings
  let weightedPenalty : Int :=
    25 * counts.critical + 15 * counts.high + 8 * counts.medium + 3 * counts.low
  let score : Int := max 0 (100 - weightedPenalty)
  let risk :=
    if 85 ≤ score then str "low"
    else if 60 ≤ score then str "medium"
    else str "high"
  ⟨score, risk, counts⟩

/-- The high-severity finding recorded when the HEAD request throws. -/
def headUnreachableFinding : Finding :=
  ⟨str "Target unreachable", Severity.high, str "network",
    str "Could not reach target using HEAD request",
    str "Check DNS records, host availability, and firewall rules"⟩

/-- The high-severity finding recorded when the GET request throws and no
unreachable finding exists yet. -/
def getUnreachableFinding : Finding :=
  ⟨str "Target unreachable", Severity.high, str "network",
    str "Could not reach target using GET request",
    str "Check DNS records, host availability, and firewall rules"⟩

/-- The high-severity finding recorded when the HEAD response's final URL
is not https. -/
def noHttpsFinding (finalUrl : Str) : Finding :=
  ⟨str "No HTTPS enforced", Severity.high, str "transport",
    str "Final URL is " ++ finalUrl,
    str "Enforce HTTPS and redirect all HTTP traffic to HTTPS"⟩

/-- The medium-severity finding for a missing `Strict-Transport-Security`
header. -/
def hstsFinding : Finding :=
  ⟨str "Missing HSTS header", Severity.medium, str "headers",
    str "Strict-Transport-Security header is absent",
    str "Add Strict-Transport-Security with a suitable max-age"⟩

/-- The medium-severity finding for a missing `X-Content-Type-Options`
header. -/
def xctoFinding : Finding :=
  ⟨str "Missing X-Content-Type-Options header", Severity.medium, str "headers",
    str "X-Content-Type-Options header is absent",
    str "Set X-Content-Type-Options: nosniff"⟩

/-- The medium-severity finding for a missing `Content-Security-Policy`
header. -/
def cspFinding : Finding :=
  ⟨str "Missing Content-Security-Policy header", Severity.medium, str "headers",
    str "Content-Security-Policy header is absent",
    str "Define and deploy a restrictive Content-Security-Policy"⟩

/-- `runLightweightSecurityScan` of the source, over the outcomes of its
two bounded fetches.  A failed HEAD records one unreachable finding and
the probe continues; a non-https final URL records the no-HTTPS finding;
a successful GET records one medium finding per missing security header;
a failed GET records an unreachable finding only if none exists yet. -/
def runLightweightSecurityScan (target : Str) (head : HeadOutcome)
    (get : GetOutcome) : ScanSummary × List Finding :=
  let findings : List Finding := []
  let findings :=
    match head with
    | HeadOutcome.err => findings ++ [headUnreachableFinding]
    | HeadOutcome.ok _ => findings
  let findings :=
    match head with
    | HeadOutcome.ok finalUrl =>
      if !((str "https://").isPrefixOf finalUrl) then
        findings ++ [noHttpsFinding finalUrl]
      else findings
    | HeadOutcome.err => findings
  let findings :=
    match get with
    | GetOutcome.ok headerNames =>
      let findings :=
        if !headersHas headerNames (str "Strict-Transport-Security") then
          findings ++ [hstsFinding]
        else findings
      let findings :=
        if !headersHas headerNames (str "X-Content-Type-Options") then
          findings ++ [xctoFinding]
        else findings
      if !headersHas headerNames (str "Content-Security-Policy") then
        findings ++ [cspFinding]
      else findings
    | GetOutcome.err =>
      if !(findings.any (fun f => decide (f.title = str "Target unreachable"))) then
        findings ++ [getUnreachableFinding]
      else findings
  (scoreSummary findings, findings)

/-- The scan statuses of the source's `ScanStatus` type. -/
inductive ScanStatus
  | queued
  | running
  | completed
  | failed
  | canceled
  | pending
deriving DecidableEq

/-- A row of the `scans` table, with the columns this function reads or
writes.  Timestamps are abstract clock readings. -/
structure ScanRow where
  id : Str
  domain : Str
  targetUrl : Option Str
  status : ScanStatus
  createdAt : Option Int
  startedAt : Option Int
  completedAt : Option Int
  score : Option Int
  criticalCount : Option Nat
  highCount : Option Nat
  mediumCount : Option Nat
  lowCount : Option Nat
  scanError : Option Str
  scanType : Str
deriving DecidableEq

/-- A row of the `scan_results` table. -/
structure ResultRow where
  scanId : Str
  summary : ScanSummary
  findings : List Finding
  createdAt : Int
deriving DecidableEq

/-- The durable store: the `scans` and `scan_results` tables. -/
structure Db where
  scans : List ScanRow
  results : List ResultRow
deriving DecidableEq

/-- `update(...).eq("id", scanId)` on the `scans` table: apply the update
to every row whose id matches. -/
def updateScans (db : Db) (scanId : Str) (f : ScanRow → ScanRow) : Db :=
  { db with scans := db.scans.map (fun s => if s.id = scanId then f s else s) }

/-- `upsert` on the `scan_results` table, keyed by `scan_id`: replace the
existing row or append a new one. -/
def upsertResult (db : Db) (row : ResultRow) : Db :=
  if db.results.any (fun r => decide (r.scanId = row.scanId)) then
    { db with results := db.results.map (fun r => if r.scanId = row.scanId then row else r) }
  else { db with results := db.results ++ [row] }

/-- How one invocation of the probe pipeline inside `processScan` goes:
either the whole `try` block throws with a message, or the two fetches
complete with the given outcomes. -/
inductive ProbeExec
  | throws (msg : Str)
  | runs (head : HeadOutcome) (get : GetOutcome)
deriving DecidableEq

/-- `processScan` of the source, as the trace of store states after each
of its database writes.  It counts `running`/`queued` rows (the query is
capped at `MAX_CONCURRENT_SCANS + 1 = 6` rows); over the ceiling it marks
the scan failed with `"Max concurrent scans reached"` and stops; otherwise
it marks the scan running, and then — depending on how the probe goes —
either upserts the result row and marks the scan completed with its score
and severity counts, or marks it failed with the thrown message.  No step
consults the scan's current status. -/
def processScan (db : Db) (scanId : Str) (target : Str) (exec : ProbeExec)
    (now : Int) : List Db :=
  let concurrent := (db.scans.filter
    (fun s => decide (s.status = ScanStatus.running ∨ s.status = ScanStatus.queued))).take 6
  if 5 < concurrent.length then
    [updateScans db scanId (fun s =>
      { s with status := ScanStatus.failed, completedAt := some now,
               scanError := some (str "Max concurrent scans reached") })]
  else
    let db1 := updateScans db scanId (fun s =>
      { s with status := ScanStatus.running, startedAt := some now })
    match exec with
    | ProbeExec.throws msg =>
      [db1, updateScans db1 scanId (fun s =>
        { s with status := ScanStatus.failed, completedAt := some now,
                 scanError := some msg })]
    | ProbeExec.runs head get =>
      let out := runLightweightSecurityScan target head get
      let db2 := upsertResult db1 ⟨scanId, out.1, out.2, now⟩
      let db3 := updateScans db2 scanId (fun s =>
        { s with status := ScanStatus.completed, completedAt := some now,
                 score := some out.1.score,
                 criticalCount := some out.1.counts.critical,
                 highCount := some out.1.counts.high,
                 mediumCount := some out.1.counts.medium,
                 lowCount := some out.1.counts.low,
                 scanError := none })
      [db1, db2, db3]

/-- The status of the first `scans` row with the given id
(`maybeSingle`). -/
def statusOf (db : Db) (scanId : Str) : Option ScanStatus :=
  (db.scans.find? (fun s => decide (s.id = scanId))).map (fun s => s.status)

/-- The JSON bodies this function responds with. -/
inductive RespBody
  | errMsg (msg : Str)
  | created (scanId : Str) (status : Str)
  | scanInfo (scanId : Str) (target : Str) (status : ScanStatus)
      (createdAt startedAt completedAt : Option Int) (error : Option Str)
  | results (scanId : Str) (summary : Option ScanSummary) (findings : List Finding)
  | notCompleted (scanId : Str) (status : ScanStatus) (msg : Str)
  | empty
deriving DecidableEq

/-- An HTTP response: status code and JSON body. -/
structure Resp where
  status : Nat
  body : RespBody
deriving DecidableEq

/-- The parsed JSON request body, covering both the creation shape
(`target`, `scan_type`, ...) and the legacy shape (`scanId`, `domain`). -/
structure ReqBody where
  target : Option Str
  scanTypeField : Option Str
  requestedBy : Option Str
  orgId : Option Str
  scanId : Option Str
  domain : Option Str
deriving DecidableEq

/-- `handleCreateScan` of the source.  Explicit arguments: the
rate-limiter map and caller identity, the clock, the parsed body, the
allow-list variable, the DNS answers, the store, and the row id the store
assigns on insert.  Returns the response, the rate-limiter map and store
afterwards, and the background `processScan` job (scan id and target)
dispatched, if any. -/
def handleCreateScan (rl : RL) (key : Str) (now : Int) (body : ReqBody)
    (allowlistEnv : Option Str) (resolved : List Str) (db : Db) (newId : Str) :
    Resp × RL × Db × Option (Str × Str) :=
  let step := checkRateLimit rl key now
  if !step.1 then
    (⟨429, RespBody.errMsg (str "Rate limit exceeded")⟩, step.2, db, none)
  else if !(jsTruthy body.target) then
    (⟨400, RespBody.errMsg (str "Missing target")⟩, step.2, db, none)
  else
    let rawTarget := body.target.getD []
    match validateTargetUrl (parseURL rawTarget) allowlistEnv resolved with
    | Except.error e => (⟨400, RespBody.errMsg e⟩, step.2, db, none)
    | Except.ok url =>
      let row : ScanRow :=
        { id := newId, domain := url.hostname,
          targetUrl := some (urlToString url), status := ScanStatus.queued,
          createdAt := some now, startedAt := none, completedAt := none,
          score := none, criticalCount := none, highCount := none,
          mediumCount := none, lowCount := none, scanError := none,
          scanType := if body.scanTypeField = some (str "full") then str "full"
                      else str "quick" }
      (⟨201, RespBody.created newId (str "queued")⟩, step.2,
        { db with scans := db.scans ++ [row] }, some (newId, urlToString url))

/-- `handleGetScan` of the source. -/
def handleGetScan (db : Db) (scanId : Str) : Resp :=
  match db.scans.find? (fun s => decide (s.id = scanId)) with
  | none => ⟨404, RespBody.errMsg (str "Scan not found")⟩
  | some scan =>
    let target :=
      match scan.targetUrl with
      | some t => t
      | none =>
        if (str "http").isPrefixOf scan.domain then scan.domain
        else str "https://" ++ scan.domain
    ⟨200, RespBody.scanInfo scan.id target scan.status scan.createdAt
      scan.startedAt scan.completedAt scan.scanError⟩

/-- `handleGetResults` of the source: 404 when the scan is unknown, 409
when it has not completed, otherwise the stored result row (or the
placeholder summary when the row is missing). -/
def handleGetResults (db : Db) (scanId : Str) : Resp :=
  match db.scans.find? (fun s => decide (s.id = scanId)) with
  | none => ⟨404, RespBody.errMsg (str "Scan not found")⟩
  | some scan =>
    if scan.status ≠ ScanStatus.completed then
      ⟨409, RespBody.notCompleted scan.id scan.status (str "Scan is not completed yet")⟩
    else
      match db.results.find? (fun r => decide (r.scanId = scanId)) with
      | some r => ⟨200, RespBody.results scan.id (some r.summary) r.findings⟩
      | none => ⟨200, RespBody.results scan.id none []⟩

/-- The target normalization of `handleLegacyInvoke`: prepend `https://`
unless the domain already carries an http or https scheme. -/
def normalizeDomain (domain : Str) : Str :=
  if (str "http://").isPrefixOf domain || (str "https://").isPrefixOf domain then domain
  else str "https://" ++ domain

/-- `handleLegacyInvoke` of the source: require truthy `scanId` and
`domain`, validate the normalized target, and dispatch `processScan` for
the given scan id.  It never consults the rate limiter.  Returns the
response, the store afterwards (unchanged), and the dispatched job. -/
def handleLegacyInvoke (body : ReqBody) (allowlistEnv : Option Str)
    (resolved : List Str) (db : Db) : Resp × Db × Option (Str × Str) :=
  if !(jsTruthy body.scanId) || !(jsTruthy body.domain) then
    (⟨400, RespBody.errMsg (str "Invalid request payload")⟩, db, none)
  else
    let scanId := body.scanId.getD []
    let domain := body.domain.getD []
    match validateTargetUrl (parseURL (normalizeDomain domain)) allowlistEnv resolved with
    | Except.error e => (⟨400, RespBody.errMsg e⟩, db, none)
    | Except.ok url =>
      (⟨202, RespBody.created scanId (str "queued")⟩, db,
        some (scanId, urlToString url))

/-- The `/api/v1/scans/{id}` route pattern: the final path segment when
it is nonempty, contains no slash, and directly follows
`/api/v1/scans/`. -/
def scanStatusMatch (pathname : Str) : Option Str :=
  let seg := (pathname.reverse.takeWhile (fun c => !(c = '/'))).reverse
  let before := pathname.take (pathname.length - seg.length)
  if !seg.isEmpty && (str "/api/v1/scans/").isSuffixOf before then some seg
  else none

/-- The `/api/v1/scans/{id}/results` route pattern. -/
def scanResultsMatch (pathname : Str) : Option Str :=
  if (str "/results").isSuffixOf pathname then
    scanStatusMatch (pathname.take (pathname.length - 8))
  else none

/-- The request handler passed to `serve`: OPTIONS preflight, the scan
creation route (any POST whose path ends in `/api/v1/scans`), the two GET
routes, the legacy POST fallback, and 404 otherwise.  Returns the
response, the rate-limiter map and store afterwards, and the background
job dispatched, if any. -/
def serveHandler (method pathname : Str) (body : ReqBody) (rl : RL) (key : Str)
    (now : Int) (allowlistEnv : Option Str) (resolved : List Str) (db : Db)
    (newId : Str) : Resp × RL × Db × Option (Str × Str) :=
  if method = str "OPTIONS" then (⟨200, RespBody.empty⟩, rl, db, none)
  else if (str "/api/v1/scans").isSuffixOf pathname && decide (method = str "POST") then
    handleCreateScan rl key now body allowlistEnv resolved db newId
  else
    match (if method = str "GET" then scanStatusMatch pathname else none) with
    | some sid => (handleGetScan db sid, rl, db, none)
    | none =>
      match (if method = str "GET" then scanResultsMatch pathname else none) with
      | some sid => (handleGetResults db sid, rl, db, none)
      | none =>
        if method = str "POST" then
          let out := handleLegacyInvoke body allowlistEnv resolved db
          (out.1, rl, out.2.1, out.2.2)
        else (⟨404, RespBody.errMsg (str "Not found")⟩, rl, db, none)

/-! ### Facts about the character-list string model -/

theorem lowerChar_dot (c : Char) (h : lowerChar c = '.') : c = '.' := by
  unfold lowerChar at h
  split at h <;> simp_all

theorem lowerChar_of_isDigit (c : Char) (h : c.isDigit = true) : lowerChar c = c := by
  unfold lowerChar
  split <;> simp_all

theorem isDigit_lowerChar (c : Char) : (lowerChar c).isDigit = c.isDigit := by
  unfold lowerChar
  split <;> simp_all

theorem lowerChar_lc_mem : ∀ d ∈ str "abcdefghijklmnopqrstuvwxyz", lowerChar d = d := by
  decide

theorem lowerChar_idem (c : Char) : lowerChar (lowerChar c) = lowerChar c := by
  have h : lowerChar c = c ∨ lowerChar c ∈ str "abcdefghijklmnopqrstuvwxyz" := by
    unfold lowerChar
    split
    all_goals first
      | (left; rfl)
      | (right; decide)
  rcases h with h | h
  · rw [h]; exact h
  · exact lowerChar_lc_mem _ h

theorem map_eq_self_of_fix {f : Char → Char} :
    ∀ l : Str, (∀ c ∈ l, f c = c) → l.map f = l
  | [], _ => rfl
  | c :: rest, h => by
    simp only [List.map_cons]
    rw [h c (by simp), map_eq_self_of_fix rest (fun x hx => h x (by simp [hx]))]

theorem jsToLower_idem (l : Str) : jsToLower (jsToLower l) = jsToLower l := by
  induction l with
  | nil => rfl
  | cons c rest ih =>
    have h1 : jsToLower (c :: rest) = lowerChar c :: jsToLower rest := rfl
    rw [h1]
    have h2 : jsToLower (lowerChar c :: jsToLower rest)
        = lowerChar (lowerChar c) :: jsToLower (jsToLower rest) := rfl
    rw [h2, lowerChar_idem, ih]

theorem splitOn_ne_nil (sep : Char) : ∀ l : Str, splitOn sep l ≠ []
  | [] => by simp [splitOn]
  | c :: rest => by
    simp only [splitOn]
    split
    · simp
    · split <;> simp

theorem splitOn_cons_of_ne (sep c : Char) (rest : Str) (h : ¬ c = sep) :
    ∃ p ps, splitOn sep (c :: rest) = (c :: p) :: ps ∧ splitOn sep rest = p :: ps := by
  simp only [splitOn, if_neg h]
  cases hsp : splitOn sep rest with
  | nil => exact absurd hsp (splitOn_ne_nil sep rest)
  | cons p ps => exact ⟨p, ps, rfl, rfl⟩

theorem splitOn_dot_lower : ∀ l : Str,
    splitOn '.' (jsToLower l) = (splitOn '.' l).map jsToLower
  | [] => rfl
  | c :: rest => by
    have hcons : jsToLower (c :: rest) = lowerChar c :: jsToLower rest := rfl
    by_cases hc : c = '.'
    · subst hc
      have hl : lowerChar '.' = '.' := rfl
      rw [hcons, hl]
      have e1 : splitOn '.' ('.' :: jsToLower rest) = [] :: splitOn '.' (jsToLower rest) := by
        simp [splitOn]
      have e2 : splitOn '.' ('.' :: rest) = [] :: splitOn '.' rest := by
        simp [splitOn]
      rw [e1, e2, splitOn_dot_lower rest]
      rfl
    · have hlc : ¬ lowerChar c = '.' := fun h => hc (lowerChar_dot c h)
      obtain ⟨p, ps, he, hr⟩ := splitOn_cons_of_ne '.' c rest hc
      obtain ⟨p', ps', he', hr'⟩ := splitOn_cons_of_ne '.' (lowerChar c) (jsToLower rest) hlc
      rw [hcons, he', he]
      have hrec := splitOn_dot_lower rest
      rw [hr, hr'] at hrec
      simp only [List.map_cons] at hrec ⊢
      injection hrec with h1 h2
      rw [h1, h2]
      rfl

theorem jsNumber_lower (p : Str) : jsNumber (jsToLower p) = jsNumber p := by
  by_cases hd : p.all Char.isDigit = true
  · have hfix : jsToLower p = p :=
      map_eq_self_of_fix p (fun x hx =>
        lowerChar_of_isDigit x (List.all_eq_true.mp hd x hx))
    rw [hfix]
  · have hEmpty : (jsToLower p).isEmpty = p.isEmpty := by cases p <;> rfl
    have hAll : (jsToLower p).all Char.isDigit = p.all Char.isDigit := by
      have hcomp : (Char.isDigit ∘ lowerChar) = Char.isDigit :=
        funext (fun c => by simp [Function.comp, isDigit_lowerChar])
      simp only [jsToLower, List.all_map, hcomp]
    simp only [jsNumber, hEmpty, hAll, hd, if_false]
    by_cases hp : p.isEmpty = true <;> simp [hp]

theorem parseIp_lower (l : Str) : parseIp (jsToLower l) = parseIp l := by
  simp only [parseIp, splitOn_dot_lower, List.length_map, List.map_map]
  have hmaps : (splitOn '.' l).map (jsNumber ∘ jsToLower) = (splitOn '.' l).map jsNumber :=
    List.map_congr_left (fun p _ => by simp [Function.comp, jsNumber_lower])
  have hmaps2 : (splitOn '.' l).map ((fun o => o.getD 0) ∘ jsNumber ∘ jsToLower)
      = (splitOn '.' l).map ((fun o => o.getD 0) ∘ jsNumber) :=
    List.map_congr_left (fun p _ => by simp [Function.comp, jsNumber_lower])
  rw [hmaps, hmaps2]

theorem parseIp_cons_none (c : Char) (l : Str) (hd : ¬ c.isDigit = true) (hdot : ¬ c = '.') :
    parseIp (c :: l) = none := by
  obtain ⟨p, ps, he, _⟩ := splitOn_cons_of_ne '.' c l hdot
  simp only [parseIp, he]
  by_cases hl : ((c :: p) :: ps).length = 4
  · rw [if_neg (by simp [hl])]
    have hnum : jsNumber (c :: p) = none := by
      simp only [jsNumber]
      rw [if_neg (by simp), if_neg (by simp [hd])]
    simp [hnum]
  · rw [if_pos (by simpa using hl)]

/-! ### C1: blocked IPv4/localhost hostnames -/

/-- C1 (amended): for every parsed target URL whose scheme is `http:` or
`https:` and whose hostname is the literal `127.0.0.1`, the literal
`localhost`, or a dotted-quad IPv4 address in `192.168.0.0/16`,
`validateTargetUrl` rejects with the `BlockedTarget` message
`"Target is blocked for security reasons"`, for every configured
allow-list (including a non-empty one containing that host) and every DNS
answer.  For a non-http(s) scheme the scheme check fires first and the
error is `"Target must use http:// or https://"` instead (see the
counterexample), which is the one correction to the claim. -/
theorem validateTargetUrl_blocked_hosts (u : URLRec) (allowlistEnv : Option Str)
    (resolved : List Str)
    (hproto : u.protocol = str "http:" ∨ u.protocol = str "https:")
    (hhost : u.hostname = str "127.0.0.1" ∨ u.hostname = str "localhost" ∨
      ∃ c d, parseIp u.hostname = some [192, 168, c, d]) :
    validateTargetUrl (some u) allowlistEnv resolved =
      Except.error (str "Target is blocked for security reasons") := by
  have hblocked : isBlockedHostname u.hostname = true := by
    rcases hhost with h | h | ⟨c, d, h⟩
    · rw [h]; decide
    · rw [h]; decide
    · have hpriv : isPrivateOrLocalIp (jsToLower u.hostname) = true := by
        unfold isPrivateOrLocalIp
        rw [parseIp_lower, h]
        simp [List.getD]
      simp only [isBlockedHostname]
      simp [hpriv]
  simp only [validateTargetUrl]
  rw [if_neg (not_not_intro hproto), if_pos hblocked]

/-- Witness for C1: `http://192.168.1.5` is rejected as blocked even with
an allow-list that contains exactly that host. -/
theorem validateTargetUrl_blocked_hosts_witness :
    validateTargetUrl (some ⟨str "http:", str "192.168.1.5", []⟩)
      (some (str "192.168.1.5")) [] =
      Except.error (str "Target is blocked for security reasons") :=
  validateTargetUrl_blocked_hosts ⟨str "http:", str "192.168.1.5", []⟩
    (some (str "192.168.1.5")) [] (Or.inl rfl)
    (Or.inr (Or.inr ⟨1, 5, by decide⟩))

/-- Counterexample for C1 as stated: for the raw target
`ftp://127.0.0.1` — hostname `127.0.0.1`, scheme `ftp:` — the validator
rejects with the scheme error, not with the `BlockedTarget` message. -/
theorem validateTargetUrl_scheme_cex :
    validateTargetUrl (parseURL (str "ftp://127.0.0.1")) none [] =
      Except.error (str "Target must use http:// or https://") ∧
    validateTargetUrl (parseURL (str "ftp://127.0.0.1")) none [] ≠
      Except.error (str "Target is blocked for security reasons") := by
  constructor <;> decide

/-! ### C2: IPv6 hostnames and the validator -/

/-- When the string does not parse as a dotted quad, `isPrivateOrLocalIp`
is exactly the textual IPv6 check on the lowercased string. -/
theorem isPrivateOrLocalIp_of_parseIp_none (ip : Str) (hp : parseIp ip = none) :
    isPrivateOrLocalIp ip =
      (decide (jsToLower ip = str "::1") || (str "fc").isPrefixOf (jsToLower ip) ||
        (str "fd").isPrefixOf (jsToLower ip) || (str "fe80:").isPrefixOf (jsToLower ip)) := by
  unfold isPrivateOrLocalIp
  rw [hp]

/-- A suffix of a list ends in the same character the list ends in. -/
theorem reverse_of_isSuffixOf (s l : Str) (c : Char) (cs : Str)
    (h : s.isSuffixOf l = true) (hc : s.reverse = c :: cs) :
    ∃ ds, l.reverse = c :: ds := by
  obtain ⟨pre, hpre⟩ := List.isSuffixOf_iff_suffix.mp h
  refine ⟨cs ++ pre.reverse, ?_⟩
  rw [← hpre, List.reverse_append, hc]
  simp

/-- C2 (amended): the WHATWG parser exposes an IPv6-literal host in
brackets — `new URL("http://[::1]").hostname` is `"[::1]"` — and the
textual IPv6 checks of `isPrivateOrLocalIp` never match a bracketed
hostname, so no http/https target with an IPv6-literal hostname is ever
rejected with the `BlockedTarget` message: (i) for every parsed URL
whose hostname has the bracketed form, `isBlockedHostname` is false and
`validateTargetUrl` never returns the `BlockedTarget` error, whatever
the scheme, allow-list and DNS answers; (ii) `http://[::1]`,
`http://[fc00::1]` and `http://[fe80::1]` all validate successfully
(with no allow-list and no DNS answers, as for IP literals); (iii) the
unbracketed spellings `http://::1` and `http://febf::1` do not parse and
fail as `Invalid URL`; (iv) the `::1`/`fc`/`fd`/`fe80:` checks take
effect only on bare DNS-resolved addresses inside `resolvesToPrivateIp`
— where `fc00::/7` is covered, `febf::1` of `fe80::/10` still slips
through, and the rejection message is `"Target resolves to a private
address"`, not the `BlockedTarget` message. -/
theorem validateTargetUrl_ipv6_never_blocked (u : URLRec)
    (allowlistEnv : Option Str) (resolved : List Str)
    (hbr : ∃ t, u.hostname = '[' :: (t ++ [']'])) :
    isBlockedHostname u.hostname = false ∧
    validateTargetUrl (some u) allowlistEnv resolved ≠
      Except.error (str "Target is blocked for security reasons") ∧
    validateTargetUrl (parseURL (str "http://[::1]")) none [] =
      Except.ok ⟨str "http:", str "[::1]", str "/"⟩ ∧
    validateTargetUrl (parseURL (str "http://[fc00::1]")) none [] =
      Except.ok ⟨str "http:", str "[fc00::1]", str "/"⟩ ∧
    validateTargetUrl (parseURL (str "http://[fe80::1]")) none [] =
      Except.ok ⟨str "http:", str "[fe80::1]", str "/"⟩ ∧
    parseURL (str "http://::1") = none ∧
    parseURL (str "http://febf::1") = none ∧
    validateTargetUrl (parseURL (str "http://::1")) allowlistEnv resolved =
      Except.error (str "Invalid URL") ∧
    resolvesToPrivateIp [str "::1"] = true ∧
    resolvesToPrivateIp [str "fc00::1"] = true ∧
    resolvesToPrivateIp [str "fe80::1"] = true ∧
    resolvesToPrivateIp [str "febf::1"] = false ∧
    validateTargetUrl (parseURL (str "https://internal.example")) none [str "::1"] =
      Except.error (str "Target resolves to a private address") := by
  obtain ⟨t, ht⟩ := hbr
  have e1 : lowerChar '[' = '[' := rfl
  have e2 : lowerChar ']' = ']' := rfl
  have hlow : jsToLower u.hostname = '[' :: (jsToLower t ++ [']']) := by
    rw [ht]
    simp [jsToLower, List.map_append, e1, e2]
  have hrev : (jsToLower u.hostname).reverse = ']' :: ((jsToLower t).reverse ++ ['[']) := by
    rw [hlow, List.reverse_cons, List.reverse_append]
    simp
  have hA : decide (jsToLower u.hostname = str "localhost") = false := by
    rw [hlow]
    rfl
  have hB : (str ".localhost").isSuffixOf (jsToLower u.hostname) = false := by
    cases hx : (str ".localhost").isSuffixOf (jsToLower u.hostname) with
    | false => rfl
    | true =>
      exfalso
      obtain ⟨ds, hds⟩ :=
        reverse_of_isSuffixOf _ _ 't' (str "sohlacol.") hx (by decide)
      rw [hrev] at hds
      injection hds with h1 _
      exact absurd h1 (by decide)
  have hC : (str ".local").isSuffixOf (jsToLower u.hostname) = false := by
    cases hx : (str ".local").isSuffixOf (jsToLower u.hostname) with
    | false => rfl
    | true =>
      exfalso
      obtain ⟨ds, hds⟩ :=
        reverse_of_isSuffixOf _ _ 'l' (str "acol.") hx (by decide)
      rw [hrev] at hds
      injection hds with h1 _
      exact absurd h1 (by decide)
  have hparse : parseIp (jsToLower u.hostname) = none := by
    rw [hlow]
    exact parseIp_cons_none '[' _ (by decide) (by decide)
  have d1 : ∀ z : Str, decide (('[' :: z) = str "::1") = false := fun z => rfl
  have d2 : ∀ z : Str, (str "fc").isPrefixOf ('[' :: z) = false := fun z => rfl
  have d3 : ∀ z : Str, (str "fd").isPrefixOf ('[' :: z) = false := fun z => rfl
  have d4 : ∀ z : Str, (str "fe80:").isPrefixOf ('[' :: z) = false := fun z => rfl
  have hD : isPrivateOrLocalIp (jsToLower u.hostname) = false := by
    rw [isPrivateOrLocalIp_of_parseIp_none _ hparse, jsToLower_idem, hlow, d1, d2, d3, d4]
    rfl
  have hblocked : isBlockedHostname u.hostname = false := by
    simp only [isBlockedHostname, hA, hB, hC, hD, Bool.or_false]
  have hne : validateTargetUrl (some u) allowlistEnv resolved ≠
      Except.error (str "Target is blocked for security reasons") := by
    simp only [validateTargetUrl]
    by_cases hp : u.protocol = str "http:" ∨ u.protocol = str "https:"
    · rw [if_neg (not_not_intro hp), if_neg (by simp [hblocked])]
      split_ifs <;> first | decide | simp
    · rw [if_pos hp]
      decide
  have hp1 : parseURL (str "http://::1") = none := by decide
  have hp2 : parseURL (str "http://febf::1") = none := by decide
  have hinv : validateTargetUrl (parseURL (str "http://::1")) allowlistEnv resolved =
      Except.error (str "Invalid URL") := by
    rw [hp1]
    rfl
  exact ⟨hblocked, hne, by decide, by decide, by decide, hp1, hp2, hinv,
    by decide, by decide, by decide, by decide, by decide⟩

/-- Witness for C2's amended statement at the bracketed loopback host,
with a non-empty allow-list. -/
theorem validateTargetUrl_ipv6_never_blocked_witness :
    isBlockedHostname (str "[::1]") = false ∧
    validateTargetUrl (some ⟨str "http:", str "[::1]", str "/"⟩)
      (some (str "allowed.example")) [] ≠
      Except.error (str "Target is blocked for security reasons") :=
  ⟨(validateTargetUrl_ipv6_never_blocked ⟨str "http:", str "[::1]", str "/"⟩
      (some (str "allowed.example")) [] ⟨str "::1", by decide⟩).1,
    (validateTargetUrl_ipv6_never_blocked ⟨str "http:", str "[::1]", str "/"⟩
      (some (str "allowed.example")) [] ⟨str "::1", by decide⟩).2.1⟩

/-- Counterexample for C2 as stated: the IPv6 loopback target
`http://[::1]` — whose parsed hostname is the bracketed `[::1]`, as the
WHATWG parser serializes it — is accepted by the validator rather than
rejected, and the unbracketed spelling `http://::1` fails URL parsing
with `"Invalid URL"`; in neither spelling does `validateTargetUrl` fail
with the `BlockedTarget` error. -/
theorem validateTargetUrl_ipv6_bracket_cex :
    validateTargetUrl (parseURL (str "http://[::1]")) none [] =
      Except.ok ⟨str "http:", str "[::1]", str "/"⟩ ∧
    validateTargetUrl (parseURL (str "http://[::1]")) none [] ≠
      Except.error (str "Target is blocked for security reasons") ∧
    validateTargetUrl (parseURL (str "http://::1")) none [] =
      Except.error (str "Invalid URL") := by
  refine ⟨by decide, by decide, by decide⟩

/-! ### C3: creating a scan for a blocked target -/

/-- C3: a POST to `/api/v1/scans` whose body target is
`http://127.0.0.1`, by a caller the rate limiter admits, answers
`400` with the `BlockedTarget` error body, leaves the store unchanged
(the insert is never reached), and dispatches no background scan. -/
theorem handleCreateScan_blocked_target (rl : RL) (key : Str) (now : Int)
    (body : ReqBody) (allowlistEnv : Option Str) (resolved : List Str) (db : Db)
    (newId : Str)
    (htarget : body.target = some (str "http://127.0.0.1"))
    (hallow : (checkRateLimit rl key now).1 = true) :
    handleCreateScan rl key now body allowlistEnv resolved db newId =
      (⟨400, RespBody.errMsg (str "Target is blocked for security reasons")⟩,
        (checkRateLimit rl key now).2, db, none) := by
  have hp : parseURL (str "http://127.0.0.1") =
      some ⟨str "http:", str "127.0.0.1", str "/"⟩ := by
    decide
  have hval : validateTargetUrl (parseURL (str "http://127.0.0.1")) allowlistEnv resolved =
      Except.error (str "Target is blocked for security reasons") := by
    rw [hp]
    simp only [validateTargetUrl]
    rw [if_neg (by decide), if_pos (by decide)]
  have ht2 : jsTruthy (some (str "http://127.0.0.1")) = true := by decide
  simp only [handleCreateScan, htarget, hallow, ht2, Option.getD_some, Bool.not_true,
    Bool.false_eq_true, if_false, hval]

/-- Witness for C3: concrete fresh caller, empty store. -/
theorem handleCreateScan_blocked_target_witness :
    handleCreateScan rlEmpty (str "1.2.3.4") 0
      ⟨some (str "http://127.0.0.1"), none, none, none, none, none⟩ none [] ⟨[], []⟩
      (str "scan-1") =
      (⟨400, RespBody.errMsg (str "Target is blocked for security reasons")⟩,
        (checkRateLimit rlEmpty (str "1.2.3.4") 0).2, ⟨[], []⟩, none) :=
  handleCreateScan_blocked_target rlEmpty (str "1.2.3.4") 0
    ⟨some (str "http://127.0.0.1"), none, none, none, none, none⟩ none [] ⟨[], []⟩
    (str "scan-1") rfl (by decide)

/-! ### C5: the sliding-window rate limiter -/

/-- While the cap is not reached and every call lies within the window of
everything recorded, each `checkRateLimit` call admits and appends its
timestamp. -/
theorem admitSeq_all_admitted (key : Str) :
    ∀ (times : List Int) (rl : RL),
      (∀ t ∈ times, ∀ p ∈ rl key, t - p ≤ 60000) →
      (∀ t1 ∈ times, ∀ t2 ∈ times, t1 - t2 ≤ 60000) →
      (rl key).length + times.length ≤ 20 →
      (admitSeq rl key times).1 = List.replicate times.length true ∧
        (admitSeq rl key times).2 key = rl key ++ times
  | [], rl, _, _, _ => by simp [admitSeq]
  | t :: rest, rl, hw, hs, hlen => by
    have hfilter : (rl key).filter (fun ts => decide (t - ts ≤ 60000)) = rl key :=
      List.filter_eq_self.mpr (fun p hp => by
        simp [hw t (by simp) p hp])
    have hlt : ¬ 20 ≤ ((rl key).filter (fun ts => decide (t - ts ≤ 60000))).length := by
      rw [hfilter]
      simp only [List.length_cons] at hlen
      omega
    have hstep : checkRateLimit rl key t = (true, updateRL rl key (rl key ++ [t])) := by
      simp only [checkRateLimit]
      rw [if_neg hlt, hfilter]
    have hkey : (updateRL rl key (rl key ++ [t])) key = rl key ++ [t] := by
      simp [updateRL]
    have ih := admitSeq_all_admitted key rest (updateRL rl key (rl key ++ [t]))
      (by
        intro x hx p hp
        rw [hkey] at hp
        rcases List.mem_append.mp hp with hm | hm
        · exact hw x (by simp [hx]) p hm
        · simp only [List.mem_singleton] at hm
          subst hm
          exact hs x (by simp [hx]) p (by simp))
      (fun a ha b hb => hs a (by simp [ha]) b (by simp [hb]))
      (by
        rw [hkey]
        simp only [List.length_append, List.length_cons, List.length_nil] at hlen ⊢
        omega)
    simp only [admitSeq, hstep]
    constructor
    · simp only [List.length_cons, List.replicate_succ]
      rw [ih.1]
    · rw [ih.2, hkey]
      simp

/-- `admitSeq` distributes over appending call sequences. -/
theorem admitSeq_append (key : Str) :
    ∀ (l1 l2 : List Int) (rl : RL),
      admitSeq rl key (l1 ++ l2) =
        ((admitSeq rl key l1).1 ++ (admitSeq (admitSeq rl key l1).2 key l2).1,
          (admitSeq (admitSeq rl key l1).2 key l2).2)
  | [], l2, rl => by simp [admitSeq]
  | t :: rest, l2, rl => by
    simp only [List.cons_append, admitSeq, List.append_eq]
    rw [admitSeq_append key rest l2]

/-- C5: `checkRateLimit` first discards the caller's timestamps older
than the 60-second window, admits exactly when fewer than 20 remain, and
records the current timestamp only when admitting (first conjunct, the
per-call contract); consequently, a fresh caller making 21 calls that all
lie within 60 seconds of one another is admitted exactly on the first 20
and rejected on the 21st (second conjunct). -/
theorem checkRateLimit_sliding_window :
    (∀ (rl : RL) (key : Str) (now : Int),
      checkRateLimit rl key now =
        (if 20 ≤ ((rl key).filter (fun ts => decide (now - ts ≤ 60000))).length then
          (false, rl)
         else
          (true, updateRL rl key
            ((rl key).filter (fun ts => decide (now - ts ≤ 60000)) ++ [now])))) ∧
    (∀ (rl : RL) (key : Str) (times : List Int),
      rl key = [] →
      times.length = 21 →
      (∀ t1 ∈ times, ∀ t2 ∈ times, t1 - t2 ≤ 60000) →
      (admitSeq rl key times).1 = List.replicate 20 true ++ [false]) := by
  constructor
  · intro rl key now
    rfl
  · intro rl key times hfresh hlen hspan
    obtain ⟨t21, ht21⟩ : ∃ x, times.drop 20 = [x] := by
      apply List.length_eq_one.mp
      rw [List.length_drop, hlen]
    have hsplit : times = times.take 20 ++ [t21] := by
      rw [← ht21, List.take_append_drop]
    have htslen : (times.take 20).length = 20 := by
      rw [List.length_take, hlen]
      omega
    have hsub1 : ∀ x ∈ times.take 20, x ∈ times := fun x hx => List.take_subset 20 times hx
    have hmem2 : t21 ∈ times := by
      rw [hsplit]
      simp
    have hall := admitSeq_all_admitted key (times.take 20) rl
      (by
        intro x _ p hp
        rw [hfresh] at hp
        exact absurd hp (List.not_mem_nil p))
      (fun a ha b hb => hspan a (hsub1 a ha) b (hsub1 b hb))
      (by rw [hfresh, htslen]; simp)
    have hstate : (admitSeq rl key (times.take 20)).2 key = times.take 20 := by
      rw [hall.2, hfresh]
      rfl
    have hfilterfull :
        (times.take 20).filter (fun p => decide (t21 - p ≤ 60000)) = times.take 20 :=
      List.filter_eq_self.mpr (fun p hp => by
        simp [hspan t21 hmem2 p (hsub1 p hp)])
    have hrej : checkRateLimit (admitSeq rl key (times.take 20)).2 key t21 =
        (false, (admitSeq rl key (times.take 20)).2) := by
      simp only [checkRateLimit, hstate, hfilterfull]
      rw [if_pos (by rw [htslen])]
    conv_lhs => rw [hsplit]
    rw [admitSeq_append]
    rw [hall.1, htslen]
    simp [admitSeq, hrej]

/-- Witness for C5: a fresh caller issuing 21 calls at the same instant
is admitted 20 times and then rejected. -/
theorem checkRateLimit_sliding_window_witness :
    (admitSeq rlEmpty (str "1.2.3.4") (List.replicate 21 0)).1 =
      List.replicate 20 true ++ [false] :=
  checkRateLimit_sliding_window.2 rlEmpty (str "1.2.3.4") (List.replicate 21 0)
    rfl (by decide) (by decide)

/-! ### C6: the score computation -/

/-- C6: for a findings list with severity counts `c, h, m, l`, the
computed score is `max 0 (100 − (25c + 15h + 8m + 3l))`; the risk label
is `low` exactly when the score is at least 85, `medium` exactly when it
is in `[60, 85)`, and `high` exactly when it is below 60; and the
score is determined by the severity counts alone. -/
theorem scoreSummary_formula (findings : List Finding) (c h m l : Nat)
    (hc : issueCounts findings = ⟨c, h, m, l⟩) :
    (scoreSummary findings).score =
      max 0 (100 - (25 * c + 15 * h + 8 * m + 3 * l : Int)) ∧
    ((scoreSummary findings).risk = str "low" ↔ 85 ≤ (scoreSummary findings).score) ∧
    ((scoreSummary findings).risk = str "medium" ↔
      (60 ≤ (scoreSummary findings).score ∧ (scoreSummary findings).score < 85)) ∧
    ((scoreSummary findings).risk = str "high" ↔ (scoreSummary findings).score < 60) ∧
    (∀ findings2 : List Finding, issueCounts findings2 = issueCounts findings →
      (scoreSummary findings2).score = (scoreSummary findings).score) := by
  have hscore : (scoreSummary findings).score =
      max 0 (100 - (25 * c + 15 * h + 8 * m + 3 * l : Int)) := by
    simp only [scoreSummary, hc]
  have hrisk : (scoreSummary findings).risk =
      (if 85 ≤ (scoreSummary findings).score then str "low"
       else if 60 ≤ (scoreSummary findings).score then str "medium"
       else str "high") := by
    simp only [scoreSummary, hc]
  refine ⟨hscore, ?_, ?_, ?_, ?_⟩
  · rw [hrisk]
    split_ifs with h1 h2
    · simp [h1]
    · constructor
      · intro he
        exact absurd he (by decide)
      · intro hge
        exact absurd hge h1
    · constructor
      · intro he
        exact absurd he (by decide)
      · intro hge
        exact absurd hge h1
  · rw [hrisk]
    split_ifs with h1 h2
    · constructor
      · intro he
        exact absurd he (by decide)
      · intro hiv
        omega
    · simp only [true_iff]
      omega
    · constructor
      · intro he
        exact absurd he (by decide)
      · intro hiv
        omega
  · rw [hrisk]
    split_ifs with h1 h2
    · constructor
      · intro he
        exact absurd he (by decide)
      · intro hlt
        omega
    · constructor
      · intro he
        exact absurd he (by decide)
      · intro hlt
        omega
    · simp only [true_iff]
      omega
  · intro findings2 h2
    simp only [scoreSummary, h2, hc]

/-- Witness for C6 at the empty findings list. -/
theorem scoreSummary_formula_witness :
    (scoreSummary []).score =
      max 0 (100 - (25 * 0 + 15 * 0 + 8 * 0 + 3 * 0 : Int)) :=
  (scoreSummary_formula [] 0 0 0 0 (by decide)).1

/-! ### C7: probe findings for unreachable targets and missing headers -/

/-- The three conditional medium findings the probe records for a
successful GET response carrying the given header names. -/
def missingHeaderFindings (headerNames : List Str) : List Finding :=
  (if !headersHas headerNames (str "Strict-Transport-Security") then [hstsFinding] else []) ++
  (if !headersHas headerNames (str "X-Content-Type-Options") then [xctoFinding] else []) ++
  (if !headersHas headerNames (str "Content-Security-Policy") then [cspFinding] else [])

/-- C7: (i) a failed HEAD records exactly one high-severity unreachable
finding in front and the probe continues with the GET inspection; when
the GET also fails, no duplicate unreachable finding is added; (ii) for an
https final URL, a successful GET contributes exactly one medium finding
per missing security header; (iii) for a reachable https target whose
response carries none of the three headers, the probe yields exactly the
three medium findings, a score of 76, and the `medium` risk label. -/
theorem probe_findings_and_score (t finalUrl : Str) (hs : List Str)
    (hfu : (str "https://").isPrefixOf finalUrl = true)
    (hmiss : headersHas hs (str "Strict-Transport-Security") = false ∧
      headersHas hs (str "X-Content-Type-Options") = false ∧
      headersHas hs (str "Content-Security-Policy") = false) :
    (∀ hs2 : List Str, (runLightweightSecurityScan t HeadOutcome.err (GetOutcome.ok hs2)).2 =
      headUnreachableFinding :: missingHeaderFindings hs2) ∧
    (runLightweightSecurityScan t HeadOutcome.err GetOutcome.err).2 =
      [headUnreachableFinding] ∧
    (∀ hs2 : List Str,
      (runLightweightSecurityScan t (HeadOutcome.ok finalUrl) (GetOutcome.ok hs2)).2 =
        missingHeaderFindings hs2) ∧
    (runLightweightSecurityScan t (HeadOutcome.ok finalUrl) (GetOutcome.ok hs)).2 =
      [hstsFinding, xctoFinding, cspFinding] ∧
    (runLightweightSecurityScan t (HeadOutcome.ok finalUrl) (GetOutcome.ok hs)).1.score = 76 ∧
    (runLightweightSecurityScan t (HeadOutcome.ok finalUrl) (GetOutcome.ok hs)).1.risk =
      str "medium" := by
  obtain ⟨h1, h2, h3⟩ := hmiss
  refine ⟨?_, ?_, ?_, ?_, ?_, ?_⟩
  · intro hs2
    simp only [runLightweightSecurityScan, missingHeaderFindings]
    split_ifs <;> simp
  · simp only [runLightweightSecurityScan]
    rw [if_neg (by decide)]
    rfl
  · intro hs2
    simp only [runLightweightSecurityScan, missingHeaderFindings, hfu, Bool.not_true,
      Bool.false_eq_true, if_false]
    split_ifs <;> simp
  · simp only [runLightweightSecurityScan, hfu, Bool.not_true, Bool.false_eq_true,
      if_false, h1, h2, h3, Bool.not_false, if_true]
    rfl
  · simp only [runLightweightSecurityScan, hfu, Bool.not_true, Bool.false_eq_true,
      if_false, h1, h2, h3, Bool.not_false, if_true]
    decide
  · simp only [runLightweightSecurityScan, hfu, Bool.not_true, Bool.false_eq_true,
      if_false, h1, h2, h3, Bool.not_false, if_true]
    decide

/-- Witness for C7: `https://example.com` reachable over https with no
response headers at all. -/
theorem probe_findings_and_score_witness :
    (runLightweightSecurityScan (str "https://example.com")
      (HeadOutcome.ok (str "https://example.com/")) (GetOutcome.ok [])).2 =
      [hstsFinding, xctoFinding, cspFinding] ∧
    (runLightweightSecurityScan (str "https://example.com")
      (HeadOutcome.ok (str "https://example.com/")) (GetOutcome.ok [])).1.score = 76 :=
  ⟨(probe_findings_and_score (str "https://example.com") (str "https://example.com/") []
      (by decide) ⟨by decide, by decide, by decide⟩).2.2.2.1,
    (probe_findings_and_score (str "https://example.com") (str "https://example.com/") []
      (by decide) ⟨by decide, by decide, by decide⟩).2.2.2.2.1⟩

/-! ### C10: bounds on every probe output -/

set_option maxHeartbeats 1000000 in
/-- C10: no probe output ever contains a critical or low severity
finding; there are at most five findings (at most two high, at most three
medium); the score is always at least 61; and the `high` risk label is
unreachable. -/
theorem probe_output_bounds (t : Str) (head : HeadOutcome) (get : GetOutcome) :
    (∀ f ∈ (runLightweightSecurityScan t head get).2,
      f.severity = Severity.high ∨ f.severity = Severity.medium) ∧
    (runLightweightSecurityScan t head get).2.length ≤ 5 ∧
    ((runLightweightSecurityScan t head get).2.filter
      (fun f => decide (f.severity = Severity.high))).length ≤ 2 ∧
    ((runLightweightSecurityScan t head get).2.filter
      (fun f => decide (f.severity = Severity.medium))).length ≤ 3 ∧
    61 ≤ (runLightweightSecurityScan t head get).1.score ∧
    (runLightweightSecurityScan t head get).1.risk ≠ str "high" := by
  cases head <;> cases get <;>
    simp only [runLightweightSecurityScan] <;>
    split_ifs <;>
    simp_all [scoreSummary, issueCounts, headUnreachableFinding, getUnreachableFinding,
      noHttpsFinding, hstsFinding, xctoFinding, cspFinding, List.filter, str]

/-- Witness for C10: the unreachable-target probe run, evaluated at its
one finding. -/
theorem probe_output_bounds_witness :
    headUnreachableFinding.severity = Severity.high ∨
      headUnreachableFinding.severity = Severity.medium :=
  (probe_output_bounds (str "https://example.com") HeadOutcome.err GetOutcome.err).1
    headUnreachableFinding (by decide)

/-! ### C8 and C4: processScan, the ceiling, and terminal states -/

/-- Every row of `updateScans db scanId f` carrying the updated id
satisfies whatever holds of all `f`-images. -/
theorem mem_updateScans (db : Db) (scanId : Str) (f : ScanRow → ScanRow)
    (P : ScanRow → Prop) (hP : ∀ s, P (f s)) :
    ∀ s2 ∈ (updateScans db scanId f).scans, s2.id = scanId → P s2 := by
  intro s2 hmem hid
  simp only [updateScans, List.mem_map] at hmem
  obtain ⟨s, hs, hback⟩ := hmem
  by_cases h : s.id = scanId
  · rw [if_pos h] at hback
    rw [← hback]
    exact hP s
  · rw [if_neg h] at hback
    rw [← hback] at hid
    exact absurd hid h

/-- `updateScans` keeps a row for every id that had one, provided the
update preserves ids. -/
theorem exists_mem_updateScans (db : Db) (scanId : Str) (f : ScanRow → ScanRow)
    (hf : ∀ s, (f s).id = s.id) (hex : ∃ s ∈ db.scans, s.id = scanId) :
    ∃ s2 ∈ (updateScans db scanId f).scans, s2.id = scanId := by
  obtain ⟨s, hs, hid⟩ := hex
  refine ⟨if s.id = scanId then f s else s, ?_, ?_⟩
  · exact List.mem_map_of_mem _ hs
  · rw [if_pos hid, hf, hid]

/-- C8: whenever the capped count of `running`/`queued` rows exceeds the
ceiling of 5, `processScan` performs exactly one store write, marking the
scan `failed` with error `"Max concurrent scans reached"` and a
`completedAt` timestamp; the result table is untouched, the outcome is
the same for every probe behaviour (the probe is never executed), and the
scan never enters the `running` state. -/
theorem processScan_concurrency_ceiling (db : Db) (scanId target : Str)
    (exec : ProbeExec) (now : Int)
    (hover : 5 < ((db.scans.filter (fun s =>
      decide (s.status = ScanStatus.running ∨ s.status = ScanStatus.queued))).take 6).length) :
    processScan db scanId target exec now =
      [updateScans db scanId (fun s =>
        { s with status := ScanStatus.failed, completedAt := some now,
                 scanError := some (str "Max concurrent scans reached") })] ∧
    (processScan db scanId target exec now).head?.map Db.results = some db.results ∧
    (∀ s2 ∈ (updateScans db scanId (fun s =>
        { s with status := ScanStatus.failed, completedAt := some now,
                 scanError := some (str "Max concurrent scans reached") })).scans,
      s2.id = scanId → s2.status = ScanStatus.failed ∧
        s2.scanError = some (str "Max concurrent scans reached") ∧
        s2.completedAt = some now) ∧
    (∀ exec2 : ProbeExec, processScan db scanId target exec2 now =
      processScan db scanId target exec now) ∧
    (∀ d ∈ processScan db scanId target exec now, ∀ s2 ∈ d.scans,
      s2.id = scanId → s2.status ≠ ScanStatus.running) := by
  have htrace : ∀ e : ProbeExec, processScan db scanId target e now =
      [updateScans db scanId (fun s =>
        { s with status := ScanStatus.failed, completedAt := some now,
                 scanError := some (str "Max concurrent scans reached") })] := by
    intro e
    simp only [processScan]
    rw [if_pos hover]
  have hrows := mem_updateScans db scanId
    (fun s => { s with status := ScanStatus.failed, completedAt := some now,
                       scanError := some (str "Max concurrent scans reached") })
    (fun s2 => s2.status = ScanStatus.failed ∧
      s2.scanError = some (str "Max concurrent scans reached") ∧
      s2.completedAt = some now)
    (fun s => ⟨rfl, rfl, rfl⟩)
  refine ⟨htrace exec, ?_, hrows, fun e2 => by rw [htrace e2, htrace exec], ?_⟩
  · rw [htrace exec]
    rfl
  · intro d hd s2 hmem hid
    rw [htrace exec] at hd
    simp only [List.mem_singleton] at hd
    subst hd
    rw [(hrows s2 hmem hid).1]
    decide

/-- A store holding six queued scans, for the ceiling witness. -/
def c8Db : Db :=
  ⟨[⟨str "a", str "example.com", some (str "https://example.com"), ScanStatus.queued,
      some 0, none, none, none, none, none, none, none, none, str "quick"⟩,
    ⟨str "b", str "example.com", some (str "https://example.com"), ScanStatus.queued,
      some 0, none, none, none, none, none, none, none, none, str "quick"⟩,
    ⟨str "c", str "example.com", some (str "https://example.com"), ScanStatus.queued,
      some 0, none, none, none, none, none, none, none, none, str "quick"⟩,
    ⟨str "d", str "example.com", some (str "https://example.com"), ScanStatus.queued,
      some 0, none, none, none, none, none, none, none, none, str "quick"⟩,
    ⟨str "e", str "example.com", some (str "https://example.com"), ScanStatus.queued,
      some 0, none, none, none, none, none, none, none, none, str "quick"⟩,
    ⟨str "f", str "example.com", some (str "https://example.com"), ScanStatus.queued,
      some 0, none, none, none, none, none, none, none, none, str "quick"⟩], []⟩

/-- Witness for C8: with six queued scans the sixth is failed outright. -/
theorem processScan_concurrency_ceiling_witness :
    processScan c8Db (str "f") (str "https://example.com")
      (ProbeExec.throws (str "boom")) 7 =
      [updateScans c8Db (str "f") (fun s =>
        { s with status := ScanStatus.failed, completedAt := some (7 : Int),
                 scanError := some (str "Max concurrent scans reached") })] :=
  (processScan_concurrency_ceiling c8Db (str "f") (str "https://example.com")
    (ProbeExec.throws (str "boom")) 7 (by decide)).1

/-- C4 (amended): `processScan` applies its status writes without any
terminal-state guard: invoked (for instance by the legacy trigger) on a
scan whose status is already `completed`, with the concurrency ceiling
not exceeded, its very first store write sets that scan's status to
`running` — a transition out of a terminal state that is a genuine
mutation, not a no-op or an error. -/
theorem processScan_terminal_mutation (db : Db) (scanId target : Str)
    (exec : ProbeExec) (now : Int)
    (hterm : ∃ s ∈ db.scans, s.id = scanId ∧ s.status = ScanStatus.completed)
    (hcap : ¬ 5 < ((db.scans.filter (fun s =>
      decide (s.status = ScanStatus.running ∨ s.status = ScanStatus.queued))).take 6).length) :
    ∃ d, (processScan db scanId target exec now).head? = some d ∧
      (∃ s2 ∈ d.scans, s2.id = scanId ∧ s2.status = ScanStatus.running) ∧
      (∀ s2 ∈ d.scans, s2.id = scanId → s2.status = ScanStatus.running) := by
  refine ⟨updateScans db scanId (fun s =>
    { s with status := ScanStatus.running, startedAt := some now }), ?_, ?_, ?_⟩
  · simp only [processScan]
    rw [if_neg hcap]
    cases exec <;> rfl
  · obtain ⟨s2, hmem, hid⟩ := exists_mem_updateScans db scanId
      (fun s => { s with status := ScanStatus.running, startedAt := some now })
      (fun s => rfl)
      (by obtain ⟨s, hs, hid, _⟩ := hterm; exact ⟨s, hs, hid⟩)
    exact ⟨s2, hmem, hid,
      mem_updateScans db scanId _ (fun r => r.status = ScanStatus.running)
        (fun s => rfl) s2 hmem hid⟩
  · exact mem_updateScans db scanId _ (fun r => r.status = ScanStatus.running)
      (fun s => rfl)

/-- A store holding one completed scan, for the C4 counterexample and
witness. -/
def c4Db : Db :=
  ⟨[⟨str "s1", str "example.com", some (str "https://example.com"),
      ScanStatus.completed, some 0, some 1, some 2, some 85, some 0, some 1,
      some 0, some 0, none, str "quick"⟩], []⟩

/-- Counterexample for C4 as stated: scan `s1` is `completed` (terminal),
yet re-invoking `processScan` on it — as the legacy trigger does — makes
its very first store write set the status back to `running`: a later
operation mutates a terminal status. -/
theorem terminal_state_mutation_cex :
    statusOf c4Db (str "s1") = some ScanStatus.completed ∧
    ((processScan c4Db (str "s1") (str "https://example.com")
      (ProbeExec.throws (str "boom")) 9).head?.map
        (fun d => statusOf d (str "s1"))) = some (some ScanStatus.running) := by
  constructor <;> decide

/-- Witness for C4's amended statement at the one-completed-scan store. -/
theorem processScan_terminal_mutation_witness :
    ∃ d, (processScan c4Db (str "s1") (str "https://example.com")
        (ProbeExec.throws (str "boom")) 9).head? = some d ∧
      (∃ s2 ∈ d.scans, s2.id = str "s1" ∧ s2.status = ScanStatus.running) ∧
      (∀ s2 ∈ d.scans, s2.id = str "s1" → s2.status = ScanStatus.running) :=
  processScan_terminal_mutation c4Db (str "s1") (str "https://example.com")
    (ProbeExec.throws (str "boom")) 9 (by decide) (by decide)

/-! ### C9: the legacy trigger path never consults the rate limiter -/

/-- `handleLegacyInvoke` answers only 400 or 202. -/
theorem handleLegacyInvoke_status (body : ReqBody) (allowlistEnv : Option Str)
    (resolved : List Str) (db : Db) :
    (handleLegacyInvoke body allowlistEnv resolved db).1.status = 400 ∨
    (handleLegacyInvoke body allowlistEnv resolved db).1.status = 202 := by
  simp only [handleLegacyInvoke]
  split_ifs
  · left
    rfl
  · split
    · left
      rfl
    · right
      rfl

/-- On a POST whose path does not end in `/api/v1/scans`, the handler
routes to the legacy path with the rate limiter untouched. -/
theorem serveHandler_legacy_route (pathname : Str) (body : ReqBody) (rl : RL)
    (key : Str) (now : Int) (allowlistEnv : Option Str) (resolved : List Str)
    (db : Db) (newId : Str)
    (hpath : (str "/api/v1/scans").isSuffixOf pathname = false) :
    serveHandler (str "POST") pathname body rl key now allowlistEnv resolved db newId =
      ((handleLegacyInvoke body allowlistEnv resolved db).1, rl,
        (handleLegacyInvoke body allowlistEnv resolved db).2.1,
        (handleLegacyInvoke body allowlistEnv resolved db).2.2) := by
  simp only [serveHandler]
  rw [if_neg (by decide), if_neg (by simp [hpath])]
  rfl

/-- C9: a legacy POST (any path not ending in `/api/v1/scans`) with a
truthy `scanId` and `domain` whose normalized target validates is
answered `202 { scan_id, status: "queued" }` with the `processScan` job
dispatched, for every state of the rate-limiter map — which is returned
unchanged — and no request on that path is ever answered 429: only the
creation route consults `checkRateLimit`. -/
theorem legacy_path_no_rate_limit (pathname : Str) (body : ReqBody) (rl : RL)
    (key : Str) (now : Int) (allowlistEnv : Option Str) (resolved : List Str)
    (db : Db) (newId : Str) (sid domain : Str) (u : URLRec)
    (hpath : (str "/api/v1/scans").isSuffixOf pathname = false)
    (hsid : body.scanId = some sid) (hsidne : ¬ sid = [])
    (hdom : body.domain = some domain) (hdomne : ¬ domain = [])
    (hval : validateTargetUrl (parseURL (normalizeDomain domain)) allowlistEnv resolved =
      Except.ok u) :
    serveHandler (str "POST") pathname body rl key now allowlistEnv resolved db newId =
      (⟨202, RespBody.created sid (str "queued")⟩, rl, db, some (sid, urlToString u)) ∧
    (∀ (body2 : ReqBody) (rl2 : RL),
      (serveHandler (str "POST") pathname body2 rl2 key now allowlistEnv resolved db
        newId).1.status ≠ 429) := by
  constructor
  · rw [serveHandler_legacy_route pathname body rl key now allowlistEnv resolved db newId hpath]
    have h1 : jsTruthy (some sid) = true := by
      cases sid with
      | nil => exact absurd rfl hsidne
      | cons a l => rfl
    have h2 : jsTruthy (some domain) = true := by
      cases domain with
      | nil => exact absurd rfl hdomne
      | cons a l => rfl
    simp only [handleLegacyInvoke, h1, h2, Bool.not_true, Bool.false_or, Bool.or_false,
      Bool.false_eq_true, if_false, hsid, hdom, Option.getD_some, hval]
  · intro body2 rl2
    rw [serveHandler_legacy_route pathname body2 rl2 key now allowlistEnv resolved db
      newId hpath]
    rcases handleLegacyInvoke_status body2 allowlistEnv resolved db with h | h <;>
      simp [h]

/-- Witness for C9: a legacy POST for scan `abc` of `example.com` against
an arbitrary-by-example rate limiter state. -/
theorem legacy_path_no_rate_limit_witness :
    serveHandler (str "POST") (str "/functions/v1/security-scan")
      ⟨none, none, none, none, some (str "abc"), some (str "example.com")⟩ rlEmpty
      (str "1.2.3.4") 0 none [] ⟨[], []⟩ (str "n") =
      (⟨202, RespBody.created (str "abc") (str "queued")⟩, rlEmpty, ⟨[], []⟩,
        some (str "abc", urlToString ⟨str "https:", str "example.com", str "/"⟩)) :=
  (legacy_path_no_rate_limit (str "/functions/v1/security-scan")
    ⟨none, none, none, none, some (str "abc"), some (str "example.com")⟩ rlEmpty
    (str "1.2.3.4") 0 none [] ⟨[], []⟩ (str "n") (str "abc") (str "example.com")
    ⟨str "https:", str "example.com", str "/"⟩ (by decide) rfl (by decide) rfl (by decide)
    (by decide)).1
